import Mathlib

/-!
Verification development for the Gecko Lambda configuration reconciliation
engine.  Shallow embedding of the manifest (template.yaml) data model, the
staleness oracle (BuildUtils.needsRebuild), the manifest read/merge/write
operations (TemplateManager / ConfigManager), the workspace discovery scan
(LambdaDetector), and the migration path from the legacy global registry.

Modelling conventions:
  * JavaScript objects are embedded as structures with Option fields
    (none = property absent / undefined); extra unknown keys that the code
    never interprets are carried as opaque association lists so that frame
    properties about preserving them can be stated.
  * JavaScript truthiness on strings ("" and undefined falsy) is modelled by
    jsOr; on numbers (0 falsy) by jsOrN.
  * Filesystem state is passed explicitly: modification times are Option Nat
    (none = file absent), parse results are a three-state TemplateFile.
  * The yaml parse/serialize collaborator is required by the spec to
    round-trip losslessly, so writes are modelled directly on the parsed
    document.
-/

/-- JS `a || b` for an optional string `a` (undefined and "" are falsy). -/
def jsOr (a : Option String) (b : String) : String :=
  match a with
  | some s => if s = "" then b else s
  | none => b

/-- JS `a || b` for two strings ("" is falsy). -/
def jsOrS (a b : String) : String :=
  if a = "" then b else a

/-- JS `a || b` for an optional number (undefined and 0 are falsy). -/
def jsOrN (a : Option Nat) (b : Nat) : Nat :=
  match a with
  | some n => if n = 0 then b else n
  | none => b

/-- JS truthiness of an optional string property. -/
def strTruthy (a : Option String) : Bool :=
  match a with
  | some s => decide (s ≠ "")
  | none => false

/-!
## BuildUtils.needsRebuild (src/unnamed/part_006, lines 84-122)

The filesystem facts the function reads, gathered into one record:
source-file mtime (none when `fs.existsSync` is false), existence of the
`build` directory, mtime of `build/bootstrap`, and mtime of `template.yaml`.
The try/catch around the body can only fire on filesystem races, which the
explicit-state model has no counterpart for.
-/

structure FsView where
  sourceMtime : Option Nat
  buildDirExists : Bool
  bootstrapMtime : Option Nat
  templateMtime : Option Nat
  deriving Repr, DecidableEq

/-- Embedding of `BuildUtils.needsRebuild`.  `sourceMainFile` is the
configured source path (the code first tests its truthiness). -/
def needsRebuild (sourceMainFile : String) (fsv : FsView) : Bool :=
  if sourceMainFile = "" then true
  else
    match fsv.sourceMtime with
    | none => true
    | some srcM =>
      if !fsv.buildDirExists then true
      else
        match fsv.bootstrapMtime with
        | none => true
        | some binM =>
          (match fsv.templateMtime with
           | some tplM => decide (tplM > binM)
           | none => false)
          || decide (srcM > binM)

/-- C1: the rebuild decision follows the ordered algorithm of the spec. -/
theorem needsRebuild_spec_ordered
    (src : String) (fsv : FsView) :
    (fsv.sourceMtime = none → needsRebuild src fsv = true) ∧
    (fsv.buildDirExists = false → needsRebuild src fsv = true) ∧
    (fsv.bootstrapMtime = none → needsRebuild src fsv = true) ∧
    (∀ b t, fsv.bootstrapMtime = some b → fsv.templateMtime = some t →
      t > b → needsRebuild src fsv = true) ∧
    (∀ b s, fsv.bootstrapMtime = some b → fsv.sourceMtime = some s →
      s > b → needsRebuild src fsv = true) ∧
    (needsRebuild src fsv = false →
      (∃ b, fsv.bootstrapMtime = some b ∧ fsv.buildDirExists = true ∧
        (∀ s, fsv.sourceMtime = some s → s ≤ b) ∧
        (∀ t, fsv.templateMtime = some t → t ≤ b))) := by
  unfold needsRebuild
  rcases fsv with ⟨sm, bd, bm, tm⟩
  simp only
  by_cases hsrc : src = ""
  · simp [hsrc]
  · simp only [if_neg hsrc]
    cases sm with
    | none =>
      refine ⟨fun _ => rfl, ?_, ?_, ?_, ?_, ?_⟩ <;> simp
    | some s =>
      cases bd with
      | false =>
        refine ⟨?_, fun _ => rfl, ?_, ?_, ?_, ?_⟩ <;> simp
      | true =>
        cases bm with
        | none =>
          refine ⟨?_, ?_, fun _ => rfl, ?_, ?_, ?_⟩ <;> simp
        | some b =>
          cases tm with
          | none =>
            constructor
            · intro h; cases h
            constructor
            · intro h; cases h
            constructor
            · intro h; cases h
            constructor
            · intro b' t hb ht; cases ht
            constructor
            · intro b' s' hb hs hgt
              cases hb; cases hs
              simp [hgt]
            · intro hfalse
              simp only [Bool.not_true, Bool.false_eq_true, if_false,
                Bool.false_or, decide_eq_false_iff_not, not_lt] at hfalse
              exact ⟨b, rfl, rfl, fun s' hs => by cases hs; exact hfalse,
                fun t ht => by cases ht⟩
          | some t =>
            constructor
            · intro h; cases h
            constructor
            · intro h; cases h
            constructor
            · intro h; cases h
            constructor
            · intro b' t' hb ht hgt
              cases hb; cases ht
              simp [hgt]
            constructor
            · intro b' s' hb hs hgt
              cases hb; cases hs
              simp [hgt]
            · intro hfalse
              simp only [Bool.not_true, Bool.false_eq_true, if_false,
                Bool.or_eq_false_iff, decide_eq_false_iff_not, not_lt]
                at hfalse
              exact ⟨b, rfl, rfl, fun s' hs => by cases hs; exact hfalse.2,
                fun t' ht => by cases ht; exact hfalse.1⟩

/-- Witness for C1: concrete evaluation of every branch hypothesis. -/
theorem needsRebuild_spec_ordered_witness :
    needsRebuild "main.go"
      ⟨some 5, true, some 3, some 4⟩ = true ∧
    needsRebuild "main.go"
      ⟨some 2, true, some 5, some 3⟩ = false := by
  have h := needsRebuild_spec_ordered "main.go" ⟨some 5, true, some 3, some 4⟩
  refine ⟨h.2.2.2.1 3 4 rfl rfl (by decide), by decide⟩

/-!
## The manifest (template.yaml) data model

Parsed-document embedding of the paths the code interprets, with opaque
association lists for every level of unknown keys the code never touches.
-/

/-- The `environmentInfo` provenance sub-block of the Gecko metadata. -/
structure EnvInfo where
  lastUpdated : Option String
  source : Option String
  awsFunctionName : Option String
  variableCount : Option Nat
  deriving Repr, DecidableEq

/-- The `Metadata.GeckoLambda` private-metadata block. -/
structure Gecko where
  sourceFile : Option String
  sourceDir : Option String
  eventType : Option String
  lastModified : Option String
  version : Option String
  buildMethod : Option String
  architecture : Option String
  runtime : Option String
  functionName : Option String
  environmentInfo : Option EnvInfo
  deriving Repr, DecidableEq

/-- A Gecko block with every property absent (the JS empty object). -/
def Gecko.empty : Gecko :=
  ⟨none, none, none, none, none, none, none, none, none, none⟩

/-- The `Metadata` section: the Gecko block plus unknown sibling keys. -/
structure MetadataSection where
  gecko : Option Gecko
  extraMeta : List (String × String)
  deriving Repr, DecidableEq

/-- One entry of a resource's `Events` map: its `Type` discriminator plus
unknown properties. -/
structure EventDef where
  type : Option String
  extraEv : List (String × String)
  deriving Repr, DecidableEq

/-- A resource's `Properties` block. -/
structure Properties where
  runtime : Option String
  architectures : List String
  envVars : Option (List (String × String))
  extraEnv : List (String × String)
  events : List (String × EventDef)
  timeout : Option Nat
  memorySize : Option Nat
  extraProps : List (String × String)
  deriving Repr, DecidableEq

def Properties.empty : Properties :=
  ⟨none, [], none, [], [], none, none, []⟩

/-- One entry of the `Resources` map. -/
structure Resource where
  type : Option String
  properties : Option Properties
  extraRes : List (String × String)
  deriving Repr, DecidableEq

/-- The `Globals.Function` block. -/
structure GlobalsFn where
  timeout : Option Nat
  memorySize : Option Nat
  runtime : Option String
  deriving Repr, DecidableEq

/-- A parsed template.yaml document. -/
structure Template where
  description : Option String
  metadata : Option MetadataSection
  globalsFn : Option GlobalsFn
  resources : List (String × Resource)
  outputs : List (String × String)
  extra : List (String × String)
  deriving Repr, DecidableEq

/-- The Gecko metadata of a document (`template.Metadata?.GeckoLambda`). -/
def Template.geckoOf (t : Template) : Option Gecko :=
  match t.metadata with
  | some m => m.gecko
  | none => none

/-- The unknown sibling keys of the Metadata section, empty when the
section is absent. -/
def Template.metaExtra (t : Template) : List (String × String) :=
  match t.metadata with
  | some m => m.extraMeta
  | none => []

/-- State of the template.yaml file in a function directory. -/
inductive TemplateFile where
  | absent : TemplateFile
  | unparseable : TemplateFile
  | parsed : Template → TemplateFile
  deriving Repr, DecidableEq

/-!
## TemplateManager write operations (src/unnamed/part_005)
-/

/-- Embedding of `TemplateManager.updateGeckoMetadata` (part_005, lines
182-219): spreads the existing Gecko block, overwriting sourceFile,
sourceDir, eventType, lastModified and version; the rest of the document is
untouched.  `now` is the serialized current time. -/
def tmUpdateGeckoMetadata (t : Template) (sourceFile sourceDir eventType now : String) :
    Template :=
  let existing := t.geckoOf.getD Gecko.empty
  let gecko := { existing with
    sourceFile := some sourceFile
    sourceDir := some sourceDir
    eventType := some eventType
    lastModified := some now
    version := some "2.0" }
  { t with metadata := some ⟨some gecko, t.metaExtra⟩ }

/-- Embedding of `ConfigManager.updateGeckoMetadata` (configManager.ts,
lines 146-179): REPLACES the whole Gecko block with exactly the five managed
fields; the rest of the document is untouched. -/
def cmUpdateGeckoMetadata (t : Template) (sourceFile sourceDir eventType now : String) :
    Template :=
  let gecko := { Gecko.empty with
    sourceFile := some sourceFile
    sourceDir := some sourceDir
    eventType := some eventType
    lastModified := some now
    version := some "2.0" }
  { t with metadata := some ⟨some gecko, t.metaExtra⟩ }

/-- Embedding of `TemplateManager.detectEventTypeFromEvents` (part_005,
lines 310-329). -/
def detectEventTypeFromEvents (events : List (String × EventDef)) : String :=
  match events with
  | [] => "apigateway"
  | (_, ev) :: _ =>
    match ev.type with
    | some "Api" => "apigateway"
    | some "S3" => "s3"
    | some "DynamoDB" => "dynamodb"
    | some "SQS" => "sqs"
    | _ => "apigateway"

/-- The `Type` discriminator of the trigger skeleton chosen by
`TemplateManager.getEventConfiguration` (part_005, lines 422-485):
`configurations[eventType] || configurations.default`, where the default
skeleton is a Schedule trigger. -/
def getEventConfigurationType (eventType : String) : String :=
  if eventType = "apigateway" then "Api"
  else if eventType = "s3" then "S3"
  else if eventType = "dynamodb" then "DynamoDB"
  else if eventType = "sqs" then "SQS"
  else "Schedule"

/-- Replace the first resource whose `Type` is AWS::Serverless::Function
(the `Object.values(resources).find(...)` idiom). -/
def updateFirstFunctionResource (rs : List (String × Resource))
    (f : Resource → Resource) : List (String × Resource) :=
  match rs with
  | [] => []
  | (k, r) :: rest =>
    if r.type = some "AWS::Serverless::Function" then (k, f r) :: rest
    else (k, r) :: updateFirstFunctionResource rest f

/-- Whether the document has a function resource. -/
def hasFunctionResource (t : Template) : Bool :=
  t.resources.any (fun p => p.2.type = some "AWS::Serverless::Function")

/-- The first function resource entry, as `Object.keys(...).find` sees it. -/
def findFunctionResource (t : Template) : Option (String × Resource) :=
  t.resources.find? (fun p => p.2.type = some "AWS::Serverless::Function")

/-- Embedding of `TemplateManager.updateEnvironmentVariables` (part_005,
lines 121-177): full replacement of the function resource's
`Environment.Variables`, plus a fresh `environmentInfo` provenance block and
lastModified stamp in the Gecko metadata.  Throws when no function resource
exists. -/
def updateEnvironmentVariables (t : Template)
    (environment : List (String × String)) (awsFunctionName : Option String)
    (now : String) : Except String Template :=
  if !hasFunctionResource t then
    .error "Lambda function resource not found in template.yaml"
  else
    let resources := updateFirstFunctionResource t.resources (fun r =>
      let props := r.properties.getD Properties.empty
      { r with properties := some { props with envVars := some environment } })
    let existing := t.geckoOf.getD Gecko.empty
    let gecko := { existing with
      environmentInfo := some ⟨some now, some "aws",
        some (jsOr awsFunctionName "manual"), some environment.length⟩
      lastModified := some now }
    .ok { t with
      resources := resources
      metadata := some ⟨some gecko, t.metaExtra⟩ }

/-!
## StringUtils.toPascalCase (src/unnamed/part_004, lines 82-86) and the
function-name derivation of extractConfigFromTemplate
-/

/-- The JS regex word character class `\w` = [A-Za-z0-9_]. -/
def isWordChar (c : Char) : Bool :=
  (decide (c ≥ 'a') && decide (c ≤ 'z')) ||
  (decide (c ≥ 'A') && decide (c ≤ 'Z')) ||
  (decide (c ≥ '0') && decide (c ≤ '9')) ||
  decide (c = '_')

/-- Left-to-right non-overlapping scan of the global replace
`replace(/[-_](\w)/g, (_, letter) => letter.toUpperCase())`: at each
position, a separator followed by a word character is replaced by the
upcased word character and the scan resumes after the pair; otherwise the
character is copied and the scan advances one position. -/
def pascalReplaceAux : List Char → List Char
  | [] => []
  | [c] => [c]
  | c :: d :: rest =>
    if c = '-' || c = '_' then
      (if isWordChar d then d.toUpper :: pascalReplaceAux rest
       else c :: pascalReplaceAux (d :: rest))
    else c :: pascalReplaceAux (d :: rest)

/-- The second replace `replace(/^\w/, c => c.toUpperCase())`. -/
def upperFirstIfWord : List Char → List Char
  | [] => []
  | c :: rest => if isWordChar c then c.toUpper :: rest else c :: rest

/-- Embedding of `StringUtils.toPascalCase`. -/
def toPascalCase (s : String) : String :=
  String.mk (upperFirstIfWord (pascalReplaceAux s.data))

/-- JS `String.prototype.toLowerCase` restricted to the ASCII inputs the
tool produces. -/
def jsToLower (s : String) : String :=
  String.mk (s.data.map Char.toLower)

/-- The regex replace `key.replace(/Function$/, "")`: drop a trailing
"Function" (8 characters) when present. -/
def stripFunctionSuffix (s : String) : String :=
  if ("Function".data).isSuffixOf s.data then
    String.mk (s.data.take (s.data.length - 8))
  else s

/-- The function-name resolution chain of extractConfigFromTemplate
(part_005, lines 247-251): metadata functionName, else the resource key with
its `Function` suffix stripped and lowercased, else the directory name. -/
def extractFunctionName (geckoName : Option String) (resourceKey dirBasename : String) :
    String :=
  jsOr geckoName (jsOrS (jsToLower (stripFunctionSuffix resourceKey)) dirBasename)

/-- True exactly when the string has a `-` or `_` immediately followed by a
word character somewhere — equivalently, when the scan of
`pascalReplaceAux` performs at least one substitution. -/
def hasSepMatch : List Char → Bool
  | [] => false
  | [_] => false
  | c :: d :: rest =>
    ((c = '-' || c = '_') && isWordChar d) || hasSepMatch (d :: rest)

/-!
## TemplateManager.createTemplate (part_005, lines 11-99)
-/

/-- The caller-supplied Partial LocalLambdaConfig consumed by
createTemplate (only the fields the function reads). -/
structure CreateParams where
  functionName : String
  eventType : String
  sourceMainFile : Option String
  sourceDir : Option String
  buildMethod : Option String
  architecture : Option String
  runtime : Option String
  tmplTimeout : Option Nat
  tmplMemorySize : Option Nat
  tmplDescription : Option String
  envVariables : Option (List (String × String))
  deriving Repr, DecidableEq

/-- The trigger skeleton chosen by `getEventConfiguration` (part_005,
lines 422-485), as its Events-map entry; uninterpreted skeleton properties
are carried as opaque pairs.  The source also receives the function name but
never uses it. -/
def getEventConfiguration (eventType : String) : List (String × EventDef) :=
  if eventType = "apigateway" then
    [("ApiEvent", ⟨some "Api", [("Path", "/hello"), ("Method", "get")]⟩)]
  else if eventType = "s3" then
    [("S3Event", ⟨some "S3",
      [("Bucket", "Ref S3Bucket"), ("Events", "s3:ObjectCreated:*"),
       ("Filter", "S3Key prefix uploads/")]⟩)]
  else if eventType = "dynamodb" then
    [("DynamoDBEvent", ⟨some "DynamoDB",
      [("Stream", "GetAtt DynamoDBTable StreamArn"),
       ("StartingPosition", "TRIM_HORIZON"), ("BatchSize", "10")]⟩)]
  else if eventType = "sqs" then
    [("SQSEvent", ⟨some "SQS",
      [("Queue", "GetAtt SQSQueue Arn"), ("BatchSize", "10")]⟩)]
  else
    [("DefaultEvent", ⟨some "Schedule", [("Schedule", "rate(10 minutes)")]⟩)]

/-- Embedding of `TemplateManager.createTemplate`: the document it builds
and serializes to template.yaml. -/
def createTemplate (p : CreateParams) (now : String) : Template :=
  let functionName := toPascalCase p.functionName
  let timeout := jsOrN p.tmplTimeout 30
  let memorySize := jsOrN p.tmplMemorySize 128
  let description :=
    jsOr p.tmplDescription ("Lambda function for " ++ p.eventType ++ " events")
  let envVars : Option (List (String × String)) :=
    match p.envVariables with
    | some vs => if vs.length = 0 then none else some vs
    | none => none
  { description := some (p.functionName ++ "\n\n" ++ description)
    metadata := some ⟨some
      { sourceFile := some (jsOr p.sourceMainFile "")
        sourceDir := some (jsOr p.sourceDir "")
        eventType := some (jsOrS p.eventType "apigateway")
        lastModified := some now
        version := some "2.0"
        buildMethod := some (jsOr p.buildMethod "direct")
        architecture := some (jsOr p.architecture "arm64")
        runtime := some (jsOr p.runtime "provided.al2023")
        functionName := none
        environmentInfo := none }, []⟩
    globalsFn := some ⟨some timeout, some memorySize,
      some (jsOr p.runtime "provided.al2023")⟩
    resources := [(functionName ++ "Function",
      { type := some "AWS::Serverless::Function"
        properties := some
          { runtime := some (jsOr p.runtime "provided.al2023")
            architectures := [jsOr p.architecture "arm64"]
            envVars := envVars
            extraEnv := []
            events := getEventConfiguration p.eventType
            timeout := none
            memorySize := none
            extraProps := [("CodeUri", "build/"), ("Handler", "bootstrap")] }
        extraRes := [] })]
    outputs := [(functionName ++ "Function", "Lambda Function ARN"),
      (functionName ++ "FunctionIamRole", "Implicit IAM Role created for function")]
    extra := [("AWSTemplateFormatVersion", "2010-09-09"),
      ("Transform", "AWS::Serverless-2016-10-31")] }

/-!
## TemplateManager.extractConfigFromTemplate (part_005, lines 224-305)
-/

/-- The fallback source info optionally supplied by the caller. -/
structure FallbackInfo where
  sourceMainFile : Option String
  sourceDir : Option String
  deriving Repr, DecidableEq

/-- The normalized configuration view (LocalLambdaConfig), with the nested
environment and template sections flattened into prefixed fields. -/
structure LocalLambdaConfig where
  functionName : String
  sourceMainFile : String
  sourceDir : String
  eventType : String
  workspacePath : String
  lastModified : String
  runtime : String
  architecture : String
  buildMethod : String
  envVariables : List (String × String)
  envLastUpdated : Option String
  envSource : Option String
  envAwsFunctionName : Option String
  tmplTimeout : Nat
  tmplMemorySize : Nat
  tmplDescription : String
  deriving Repr, DecidableEq

/-- The environmentInfo default of extractConfigFromTemplate: the block
itself when present, else empty lastUpdated with source "manual". -/
def envMetaOf : Option EnvInfo → EnvInfo
  | some e => e
  | none => ⟨some "", some "manual", none, none⟩

/-- Embedding of `TemplateManager.extractConfigFromTemplate`.
`dirBasename` stands for `path.basename(lambdaDir)`, `workspacePath` for
`path.dirname(lambdaDir)` and `now` for `new Date().toISOString()`.
Returns none when no function resource exists (the code throws). -/
def extractConfigFromTemplate (t : Template) (dirBasename workspacePath : String)
    (fallback : Option FallbackInfo) (now : String) : Option LocalLambdaConfig :=
  match findFunctionResource t with
  | none => none
  | some (key, res) =>
    let g := t.geckoOf
    let props := res.properties.getD Properties.empty
    let globals := t.globalsFn.getD ⟨none, none, none⟩
    let eventType :=
      jsOr (g.bind (·.eventType)) (detectEventTypeFromEvents props.events)
    let envMeta : EnvInfo := envMetaOf (g.bind (·.environmentInfo))
    some
      { functionName := extractFunctionName (g.bind (·.functionName)) key dirBasename
        sourceMainFile :=
          jsOr (g.bind (·.sourceFile)) (jsOr (fallback.bind (·.sourceMainFile)) "")
        sourceDir :=
          jsOr (g.bind (·.sourceDir)) (jsOr (fallback.bind (·.sourceDir)) "")
        eventType := eventType
        workspacePath := workspacePath
        lastModified := jsOr (g.bind (·.lastModified)) now
        runtime := jsOr (g.bind (·.runtime))
          (jsOr props.runtime (jsOr globals.runtime "provided.al2023"))
        architecture := jsOr (g.bind (·.architecture))
          (jsOr props.architectures.head? "arm64")
        buildMethod := jsOr (g.bind (·.buildMethod)) "direct"
        envVariables := props.envVars.getD []
        envLastUpdated := envMeta.lastUpdated
        envSource := envMeta.source
        envAwsFunctionName := envMeta.awsFunctionName
        tmplTimeout := jsOrN props.timeout (jsOrN globals.timeout 30)
        tmplMemorySize := jsOrN props.memorySize (jsOrN globals.memorySize 128)
        tmplDescription :=
          jsOr t.description ("Lambda function for " ++ eventType ++ " events") }

/-!
## Validation, repair and migration
-/

/-- Result of `TemplateManager.validateGeckoMetadata` (part_005, lines
334-381). -/
structure GeckoValidation where
  hasMetadata : Bool
  isValid : Bool
  metadata : Option Gecko
  issues : List String
  deriving Repr, DecidableEq

/-- Embedding of `TemplateManager.validateGeckoMetadata` on a parsed
document (the read/parse failure branch lives in the TemplateFile-level
callers). -/
def validateGeckoMetadata (t : Template) : GeckoValidation :=
  match t.geckoOf with
  | none =>
    ⟨false, false, none, ["No Gecko Lambda metadata found in template.yaml"]⟩
  | some g =>
    let issues :=
      (if !strTruthy g.sourceFile then ["Missing sourceFile in metadata"] else []) ++
      (if !strTruthy g.sourceDir then ["Missing sourceDir in metadata"] else []) ++
      (if !strTruthy g.eventType then ["Missing eventType in metadata"] else []) ++
      (if !strTruthy g.version then ["Missing version in metadata"] else [])
    ⟨true, issues.isEmpty, some g, issues⟩

/-- Result of `ConfigManager.validateUnifiedTemplate` (configManager.ts,
lines 181-202). -/
structure UnifiedValidation where
  fileExists : Bool
  hasMetadata : Bool
  metadata : Option Gecko
  deriving Repr, DecidableEq

/-- Embedding of `ConfigManager.validateUnifiedTemplate`: only tests the
presence of the Gecko block, never its completeness. -/
def validateUnifiedTemplate : TemplateFile → UnifiedValidation
  | .absent => ⟨false, false, none⟩
  | .unparseable => ⟨true, false, none⟩
  | .parsed t => ⟨true, t.geckoOf.isSome, t.geckoOf⟩

/-- Embedding of `ConfigManager.repairTemplate` (configManager.ts, lines
204-229): repairs only when the file exists and the validation reports no
metadata; an unparseable file makes the inner updateGeckoMetadata read
throw, which the outer catch rethrows. -/
def repairTemplate (tf : TemplateFile) (sourceFile sourceDir eventType now : String) :
    Except String TemplateFile :=
  let v := validateUnifiedTemplate tf
  if v.fileExists && !v.hasMetadata then
    match tf with
    | .parsed t => .ok (.parsed (cmUpdateGeckoMetadata t sourceFile sourceDir eventType now))
    | _ => .error "Failed to repair template: Failed to parse template.yaml"
  else if !v.fileExists then
    .error "Template file does not exist"
  else
    .ok tf

/-- Embedding of `TemplateManager.migrateToUnifiedSystem` (part_005, lines
386-405) on a parsed document: rewrites the metadata through
updateGeckoMetadata whenever it is absent OR incomplete. -/
def migrateToUnifiedSystem (t : Template) (sourceFile sourceDir eventType now : String) :
    Template :=
  let v := validateGeckoMetadata t
  if !v.hasMetadata || !v.isValid then
    tmUpdateGeckoMetadata t sourceFile sourceDir eventType now
  else t

/-!
## LambdaDetector (src/src/detector.ts)
-/

/-- The detector's LambdaConfig record. -/
structure DetLambdaConfig where
  functionName : String
  workspacePath : String
  eventType : String
  lastModified : String
  sourceFile : String
  sourceDir : String
  deriving Repr, DecidableEq

/-- Embedding of `LambdaDetector.getConfiguration` (detector.ts, lines
72-112).  The workspace scan is the association list `dirs` of
subdirectory name to template.yaml state; `dirnameQuery` stands for
`path.dirname(sourceFile)` and `now` for the current time.  Directories
without a manifest and parse failures are skipped. -/
def getConfiguration (sourceFile dirnameQuery wsPath now : String) :
    List (String × TemplateFile) → Option DetLambdaConfig
  | [] => none
  | (d, tf) :: rest =>
    match tf with
    | .parsed t =>
      match t.geckoOf with
      | some g =>
        if g.sourceFile = some sourceFile then
          some
            { functionName := d
              workspacePath := wsPath
              eventType := jsOr g.eventType "apigateway"
              lastModified := jsOr g.lastModified now
              sourceFile := sourceFile
              sourceDir := jsOr g.sourceDir dirnameQuery }
        else getConfiguration sourceFile dirnameQuery wsPath now rest
      | none => getConfiguration sourceFile dirnameQuery wsPath now rest
    | _ => getConfiguration sourceFile dirnameQuery wsPath now rest

/-- Embedding of `LambdaDetector.getAllLambdaFunctions` (detector.ts,
lines 221-262): one entry per manifest with a Gecko block; manifests
without one or that fail to parse are skipped. -/
def getAllLambdaFunctions (wsPath now : String)
    (dirs : List (String × TemplateFile)) : List DetLambdaConfig :=
  dirs.filterMap (fun p =>
    match p.2 with
    | .parsed t =>
      match t.geckoOf with
      | some g =>
        some
          { functionName := p.1
            workspacePath := wsPath
            eventType := jsOr g.eventType "apigateway"
            lastModified := jsOr g.lastModified now
            sourceFile := jsOr g.sourceFile ""
            sourceDir := jsOr g.sourceDir "" }
      | none => none
    | _ => none)

/-- First template.yaml state under the given function directory name. -/
def wsFind (name : String) (dirs : List (String × TemplateFile)) :
    Option TemplateFile :=
  (dirs.find? (fun p => p.1 = name)).map (fun p => p.2)

/-- Write the template.yaml of the named function directory, creating the
directory when absent. -/
def wsUpsert (name : String) (tf : TemplateFile) :
    List (String × TemplateFile) → List (String × TemplateFile)
  | [] => [(name, tf)]
  | (d, t) :: rest =>
    if d = name then (name, tf) :: rest else (d, t) :: wsUpsert name tf rest

/-- A template document with no sections (the JS `{}`). -/
def emptyTemplate : Template := ⟨none, none, none, [], [], []⟩

/-- The Gecko block that `LambdaDetector.saveConfiguration` writes for a
configuration record. -/
def geckoFromEntry (cfg : DetLambdaConfig) : Gecko :=
  { Gecko.empty with
    sourceFile := some cfg.sourceFile
    sourceDir := some cfg.sourceDir
    eventType := some cfg.eventType
    lastModified := some cfg.lastModified
    version := some "2.0" }

/-- Embedding of `LambdaDetector.saveConfiguration` (detector.ts, lines
116-161): reads the existing template (an unparseable or absent one becomes
a fresh empty document), replaces its Gecko block with the five managed
fields taken from the configuration, and writes it back. -/
def saveConfiguration (cfg : DetLambdaConfig)
    (dirs : List (String × TemplateFile)) : List (String × TemplateFile) :=
  let t :=
    match wsFind cfg.functionName dirs with
    | some (.parsed t) => t
    | _ => emptyTemplate
  wsUpsert cfg.functionName
    (.parsed { t with metadata := some ⟨some (geckoFromEntry cfg), t.metaExtra⟩ })
    dirs

/-- Embedding of `ConfigManager.detectEventTypeFromTemplate`
(configManager.ts, lines 95-125). -/
def detectEventTypeFromTemplate (t : Template) : String :=
  match findFunctionResource t with
  | some (_, r) =>
    (match r.properties with
     | some props =>
       (match props.events with
        | [] => "apigateway"
        | (_, ev) :: _ =>
          match ev.type with
          | some "Api" => "apigateway"
          | some "S3" => "s3"
          | some "DynamoDB" => "dynamodb"
          | some "SQS" => "sqs"
          | _ => "apigateway")
     | none => "apigateway")
  | none => "apigateway"

/-!
## Workspace-level migration from the legacy global registry
-/

/-- A workspace: the legacy global registry file (.gecko-lambda-config.json),
its backup, and the per-function directories. -/
structure Workspace where
  legacy : Option (List DetLambdaConfig)
  legacyBackup : Option (List DetLambdaConfig)
  dirs : List (String × TemplateFile)
  deriving Repr, DecidableEq

/-- Modelled from the spec: the body of
`LambdaDetector.migrateFromGlobalConfig` (detector.ts, lines 264-266) is
elided in the source; per the spec, migration writes, for each legacy
entry, the corresponding per-function manifest with private metadata
populated from that entry — here through the detector's own
saveConfiguration write path. -/
def migrateFromGlobalConfig (w : Workspace) : Workspace :=
  match w.legacy with
  | none => w
  | some entries =>
    { w with dirs := entries.foldl (fun ds e => saveConfiguration e ds) w.dirs }

/-- Embedding of `ConfigManager.cleanupGlobalConfig` (configManager.ts,
lines 243-263): renames the legacy registry to its .backup name when
present; does nothing when absent. -/
def cleanupGlobalConfig (w : Workspace) : Workspace :=
  match w.legacy with
  | some reg => { w with legacy := none, legacyBackup := some reg }
  | none => w

/-- Embedding of `performUnifiedSystemMigration` (extension activation,
non-forced path): when the legacy registry file exists, migrate its entries
and then back it up; otherwise do nothing. -/
def performUnifiedSystemMigration (w : Workspace) : Workspace :=
  if w.legacy.isSome then cleanupGlobalConfig (migrateFromGlobalConfig w)
  else w

/-!
## Claims
-/

/-- C9: structural event-type inference is total and always lands in the
four known tags; an empty trigger map or an unknown Type discriminator
yields "apigateway" — unlike manifest creation, whose skeleton for unknown
event types is the Schedule trigger. -/
theorem detectEventType_total_apigateway_fallback :
    (∀ events, detectEventTypeFromEvents events ∈
      ["apigateway", "s3", "dynamodb", "sqs"]) ∧
    detectEventTypeFromEvents [] = "apigateway" ∧
    (∀ name ev rest,
      ev.type ∉ [some "Api", some "S3", some "DynamoDB", some "SQS"] →
      detectEventTypeFromEvents ((name, ev) :: rest) = "apigateway") ∧
    (∀ t, detectEventTypeFromTemplate t ∈
      ["apigateway", "s3", "dynamodb", "sqs"]) ∧
    (∀ et, et ∉ ["apigateway", "s3", "dynamodb", "sqs"] →
      (getEventConfigurationType et = "Schedule" ∧
        detectEventTypeFromEvents [] ≠ getEventConfigurationType et)) := by
  refine ⟨?_, rfl, ?_, ?_, ?_⟩
  · intro events
    unfold detectEventTypeFromEvents
    split
    · simp
    · split <;> simp
  · intro name ev rest hn
    simp only [List.mem_cons, List.not_mem_nil, or_false] at hn
    push_neg at hn
    obtain ⟨hA, hS, hD, hQ⟩ := hn
    show (match ev.type with
      | some "Api" => "apigateway"
      | some "S3" => "s3"
      | some "DynamoDB" => "dynamodb"
      | some "SQS" => "sqs"
      | _ => "apigateway") = "apigateway"
    cases hty : ev.type with
    | none => rfl
    | some s =>
      split
      · rfl
      · rename_i heq; injection heq with h; rw [h] at hty; exact absurd hty hS
      · rename_i heq; injection heq with h; rw [h] at hty; exact absurd hty hD
      · rename_i heq; injection heq with h; rw [h] at hty; exact absurd hty hQ
      · rfl
  · intro t
    unfold detectEventTypeFromTemplate
    split
    · split
      · split
        · simp
        · split <;> simp
      · simp
    · simp
  · intro et hn
    simp only [List.mem_cons, List.not_mem_nil, or_false] at hn
    push_neg at hn
    obtain ⟨h1, h2, h3, h4⟩ := hn
    unfold getEventConfigurationType
    rw [if_neg h1, if_neg h2, if_neg h3, if_neg h4]
    exact ⟨rfl, by decide⟩

/-- Witness for C9: a concrete unknown discriminator and a concrete unknown
event type. -/
theorem detectEventType_total_apigateway_fallback_witness :
    detectEventTypeFromEvents [("KinesisEvent", ⟨some "Kinesis", []⟩)] =
      "apigateway" ∧
    getEventConfigurationType "kinesis" = "Schedule" := by
  have h := detectEventType_total_apigateway_fallback
  exact ⟨h.2.2.1 "KinesisEvent" ⟨some "Kinesis", []⟩ [] (by decide),
    (h.2.2.2.2 "kinesis" (by decide)).1⟩

/-- C4: both metadata-merge writes touch only the Gecko block: the
description, globals, resources, outputs, unknown top-level keys and the
Gecko block's unknown Metadata siblings all survive the
parse-merge-serialize round trip. -/
theorem updateGeckoMetadata_preserves_frame
    (t : Template) (sf sd et now : String) :
    (cmUpdateGeckoMetadata t sf sd et now).description = t.description ∧
    (cmUpdateGeckoMetadata t sf sd et now).globalsFn = t.globalsFn ∧
    (cmUpdateGeckoMetadata t sf sd et now).resources = t.resources ∧
    (cmUpdateGeckoMetadata t sf sd et now).outputs = t.outputs ∧
    (cmUpdateGeckoMetadata t sf sd et now).extra = t.extra ∧
    (cmUpdateGeckoMetadata t sf sd et now).metaExtra = t.metaExtra ∧
    (tmUpdateGeckoMetadata t sf sd et now).description = t.description ∧
    (tmUpdateGeckoMetadata t sf sd et now).globalsFn = t.globalsFn ∧
    (tmUpdateGeckoMetadata t sf sd et now).resources = t.resources ∧
    (tmUpdateGeckoMetadata t sf sd et now).outputs = t.outputs ∧
    (tmUpdateGeckoMetadata t sf sd et now).extra = t.extra ∧
    (tmUpdateGeckoMetadata t sf sd et now).metaExtra = t.metaExtra := by
  refine ⟨rfl, rfl, rfl, rfl, rfl, rfl, rfl, rfl, rfl, rfl, rfl, rfl⟩


/-- Updating the first function resource in place commutes with finding it,
when the update preserves the Type discriminator. -/
theorem findFunctionResource_updateFirst
    (rs : List (String × Resource)) (f : Resource → Resource)
    (hf : ∀ r, (f r).type = r.type) :
    ∀ k r, rs.find? (fun p => p.2.type = some "AWS::Serverless::Function") = some (k, r) →
      (updateFirstFunctionResource rs f).find?
          (fun p => p.2.type = some "AWS::Serverless::Function") = some (k, f r) := by
  induction rs with
  | nil => intro k r h; simp [List.find?] at h
  | cons hd tl ih =>
    intro k r h
    obtain ⟨k0, r0⟩ := hd
    by_cases hty : r0.type = some "AWS::Serverless::Function"
    · rw [List.find?_cons_of_pos _ (by simpa using hty)] at h
      injection h with h
      cases h
      unfold updateFirstFunctionResource
      rw [if_pos hty]
      rw [List.find?_cons_of_pos _ (by simp [hf, hty])]
    · rw [List.find?_cons_of_neg _ (by simpa using hty)] at h
      unfold updateFirstFunctionResource
      rw [if_neg hty]
      rw [List.find?_cons_of_neg _ (by simpa using hty)]
      exact ih k r h

/-- C5: updateEnvironment fully replaces the function resource's
environment-variable set (last writer wins for the whole set) and stamps an
environmentInfo provenance block whose origin marker is the supplied label,
or "manual" when none was given, together with the update time and the
variable count. -/
theorem updateEnvironment_replaces_and_stamps
    (t : Template) (env : List (String × String)) (origin : Option String)
    (now : String) (h : hasFunctionResource t = true) :
    ∃ t2, updateEnvironmentVariables t env origin now = .ok t2 ∧
      (∃ k r, findFunctionResource t2 = some (k, r) ∧
        (r.properties.getD Properties.empty).envVars = some env) ∧
      (∃ g, t2.geckoOf = some g ∧
        g.environmentInfo =
          some ⟨some now, some "aws", some (jsOr origin "manual"), some env.length⟩ ∧
        g.lastModified = some now) ∧
      (origin = none →
        ∃ g, t2.geckoOf = some g ∧
          (g.environmentInfo.map (fun i => i.awsFunctionName)) =
            some (some "manual")) ∧
      (∀ l, origin = some l → l ≠ "" →
        ∃ g, t2.geckoOf = some g ∧
          (g.environmentInfo.map (fun i => i.awsFunctionName)) =
            some (some l)) := by
  have hfind : ∃ p, findFunctionResource t = some p := by
    unfold hasFunctionResource at h
    rcases List.any_eq_true.mp h with ⟨x, hx, hpx⟩
    exact Option.isSome_iff_exists.mp (List.find?_isSome.mpr ⟨x, hx, hpx⟩)
  obtain ⟨⟨k, r⟩, hk⟩ := hfind
  unfold updateEnvironmentVariables
  rw [h]
  simp only [Bool.not_true, Bool.false_eq_true, if_false]
  refine ⟨_, rfl, ?_, ?_, ?_, ?_⟩
  · have hres := findFunctionResource_updateFirst t.resources
      (fun r =>
        let props := r.properties.getD Properties.empty
        { r with properties := some { props with envVars := some env } })
      (fun _ => rfl) k r hk
    exact ⟨k, _, hres, rfl⟩
  · exact ⟨_, rfl, rfl, rfl⟩
  · intro ho; subst ho; exact ⟨_, rfl, rfl⟩
  · intro l ho hne; subst ho
    refine ⟨_, rfl, ?_⟩
    simp [jsOr, hne]

/-- Witness for C5: a concrete template with one function resource. -/
theorem updateEnvironment_replaces_and_stamps_witness :
    ∃ t2, updateEnvironmentVariables
        ⟨none, none, none,
          [("FooFunction", ⟨some "AWS::Serverless::Function", none, []⟩)], [], []⟩
        [("A", "1"), ("B", "2")] none "T1" = .ok t2 ∧
      (∃ k r, findFunctionResource t2 = some (k, r) ∧
        (r.properties.getD Properties.empty).envVars = some [("A", "1"), ("B", "2")]) := by
  obtain ⟨t2, h1, h2, _⟩ := updateEnvironment_replaces_and_stamps
    ⟨none, none, none,
      [("FooFunction", ⟨some "AWS::Serverless::Function", none, []⟩)], [], []⟩
    [("A", "1"), ("B", "2")] none "T1" (by decide)
  exact ⟨t2, h1, h2⟩

/-- Whether a function directory's template.yaml claims the queried source
file: it parses, has a Gecko block, and that block's sourceFile equals the
query exactly. -/
def claimsSource (q : String) : TemplateFile → Bool
  | .parsed t =>
    (match t.geckoOf with
     | some g => g.sourceFile == some q
     | none => false)
  | _ => false

/-- C6: the discovery scan returns none when no manifest claims the queried
source file, and when a single manifest claims it (by exact string equality
on the private metadata's sourceFile), the scan returns exactly that
function's configuration. -/
theorem getConfiguration_findBySourceFile (q dq ws now : String) :
    (∀ dirs, (∀ p ∈ dirs, claimsSource q p.2 = false) →
      getConfiguration q dq ws now dirs = none) ∧
    (∀ pre post d t g, t.geckoOf = some g → g.sourceFile = some q →
      (∀ p ∈ pre, claimsSource q p.2 = false) →
      (∀ p ∈ post, claimsSource q p.2 = false) →
      getConfiguration q dq ws now (pre ++ (d, .parsed t) :: post) =
        some ⟨d, ws, jsOr g.eventType "apigateway", jsOr g.lastModified now,
          q, jsOr g.sourceDir dq⟩) := by
  have skip : ∀ d tf rest, claimsSource q tf = false →
      getConfiguration q dq ws now ((d, tf) :: rest) =
        getConfiguration q dq ws now rest := by
    intro d tf rest hcl
    cases tf with
    | absent => rfl
    | unparseable => rfl
    | parsed t =>
      cases hg : t.geckoOf with
      | none =>
        show (match t.geckoOf with
          | some g =>
            if g.sourceFile = some q then
              some ⟨d, ws, jsOr g.eventType "apigateway", jsOr g.lastModified now,
                q, jsOr g.sourceDir dq⟩
            else getConfiguration q dq ws now rest
          | none => getConfiguration q dq ws now rest) =
          getConfiguration q dq ws now rest
        rw [hg]
      | some g =>
        have hne : g.sourceFile ≠ some q := by
          intro hEq
          simp [claimsSource, hg, hEq] at hcl
        show (match t.geckoOf with
          | some g =>
            if g.sourceFile = some q then
              some ⟨d, ws, jsOr g.eventType "apigateway", jsOr g.lastModified now,
                q, jsOr g.sourceDir dq⟩
            else getConfiguration q dq ws now rest
          | none => getConfiguration q dq ws now rest) =
          getConfiguration q dq ws now rest
        rw [hg]
        simp [hne]
  constructor
  · intro dirs
    induction dirs with
    | nil => intro _; rfl
    | cons p rest ih =>
      intro hall
      obtain ⟨d, tf⟩ := p
      rw [skip d tf rest (hall (d, tf) (List.mem_cons_self _ _))]
      exact ih (fun p hp => hall p (List.mem_cons_of_mem _ hp))
  · intro pre post d t g hg hq hpre _hpost
    induction pre with
    | nil =>
      rw [List.nil_append]
      show (match t.geckoOf with
        | some g =>
          if g.sourceFile = some q then
            some (⟨d, ws, jsOr g.eventType "apigateway", jsOr g.lastModified now,
              q, jsOr g.sourceDir dq⟩ : DetLambdaConfig)
          else getConfiguration q dq ws now post
        | none => getConfiguration q dq ws now post) = _
      rw [hg]
      simp [hq]
    | cons p rest ih =>
      rw [List.cons_append,
        skip p.1 p.2 (rest ++ (d, .parsed t) :: post)
          (hpre p (List.mem_cons_self _ _))]
      exact ih (fun x hx => hpre x (List.mem_cons_of_mem _ hx))

/-- Witness for C6: a two-directory workspace where exactly the second
manifest claims the queried source file. -/
theorem getConfiguration_findBySourceFile_witness :
    getConfiguration "/x/main.go" "/x" "/ws" "T"
      [("a", .parsed ⟨none, none, none, [], [], []⟩),
       ("b", .parsed ⟨none, some ⟨some { Gecko.empty with
          sourceFile := some "/x/main.go", eventType := some "s3" }, []⟩,
          none, [], [], []⟩)] =
      some ⟨"b", "/ws", "s3", "T", "/x/main.go", "/x"⟩ := by
  have h := (getConfiguration_findBySourceFile "/x/main.go" "/x" "/ws" "T").2
    [("a", .parsed ⟨none, none, none, [], [], []⟩)] [] "b"
    ⟨none, some ⟨some { Gecko.empty with
      sourceFile := some "/x/main.go", eventType := some "s3" }, []⟩,
      none, [], [], []⟩
    { Gecko.empty with sourceFile := some "/x/main.go", eventType := some "s3" }
    rfl rfl (by decide) (by decide)
  simpa using h

/-- C8: the workspace-wide scan returns one configuration per manifest with
a Gecko block; a manifest without the block, a parse failure, or a missing
manifest in the middle of the scan contributes nothing and does not abort
the rest of the scan. -/
theorem getAllLambdaFunctions_skips_and_continues (ws now : String) :
    (∀ pre post d t g, t.geckoOf = some g →
      getAllLambdaFunctions ws now (pre ++ (d, .parsed t) :: post) =
        getAllLambdaFunctions ws now pre ++
          ⟨d, ws, jsOr g.eventType "apigateway", jsOr g.lastModified now,
            jsOr g.sourceFile "", jsOr g.sourceDir ""⟩ ::
          getAllLambdaFunctions ws now post) ∧
    (∀ pre post d t, t.geckoOf = none →
      getAllLambdaFunctions ws now (pre ++ (d, .parsed t) :: post) =
        getAllLambdaFunctions ws now pre ++ getAllLambdaFunctions ws now post) ∧
    (∀ pre post d,
      getAllLambdaFunctions ws now (pre ++ (d, .unparseable) :: post) =
        getAllLambdaFunctions ws now pre ++ getAllLambdaFunctions ws now post) ∧
    (∀ pre post d,
      getAllLambdaFunctions ws now (pre ++ (d, .absent) :: post) =
        getAllLambdaFunctions ws now pre ++ getAllLambdaFunctions ws now post) := by
  refine ⟨?_, ?_, ?_, ?_⟩
  · intro pre post d t g hg
    unfold getAllLambdaFunctions
    rw [List.filterMap_append, List.filterMap_cons]
    simp only [hg]
  · intro pre post d t hg
    unfold getAllLambdaFunctions
    rw [List.filterMap_append, List.filterMap_cons]
    simp only [hg]
  · intro pre post d
    unfold getAllLambdaFunctions
    rw [List.filterMap_append, List.filterMap_cons]
  · intro pre post d
    unfold getAllLambdaFunctions
    rw [List.filterMap_append, List.filterMap_cons]

/-- A complete Gecko block used by concrete scan witnesses. -/
def gFullW : Gecko :=
  { Gecko.empty with
    sourceFile := some "/x/main.go"
    sourceDir := some "/x"
    eventType := some "sqs" }

/-- A manifest carrying the complete Gecko block. -/
def tFullW : Template := ⟨none, some ⟨some gFullW, []⟩, none, [], [], []⟩

/-- A manifest with no Gecko metadata at all. -/
def tPlainW : Template := ⟨none, none, none, [], [], []⟩

/-- Witness for C8: a scan over one unparseable manifest, one complete
manifest and one metadata-less manifest returns exactly the complete one. -/
theorem getAllLambdaFunctions_skips_and_continues_witness :
    getAllLambdaFunctions "/ws" "T"
      [("bad", .unparseable), ("full", .parsed tFullW),
       ("plain", .parsed tPlainW)] =
      [⟨"full", "/ws", "sqs", "T", "/x/main.go", "/x"⟩] := by
  have h := (getAllLambdaFunctions_skips_and_continues "/ws" "T").1
    [("bad", .unparseable)] [("plain", .parsed tPlainW)] "full" tFullW gFullW rfl
  simpa using h

/-- wsFind on a cons cell. -/
theorem wsFind_cons (n a : String) (b : TemplateFile)
    (rest : List (String × TemplateFile)) :
    wsFind n ((a, b) :: rest) = if a = n then some b else wsFind n rest := by
  unfold wsFind
  by_cases h : a = n
  · rw [List.find?_cons_of_pos _ (by simpa using h), if_pos h]
    rfl
  · rw [List.find?_cons_of_neg _ (by simpa using h), if_neg h]

/-- wsFind after wsUpsert: the written entry shadows, others unchanged. -/
theorem wsFind_upsert (m n : String) (tf : TemplateFile)
    (ds : List (String × TemplateFile)) :
    wsFind n (wsUpsert m tf ds) = if m = n then some tf else wsFind n ds := by
  induction ds with
  | nil =>
    show wsFind n [(m, tf)] = _
    rw [wsFind_cons]
  | cons p rest ih =>
    obtain ⟨d, t⟩ := p
    unfold wsUpsert
    by_cases hdm : d = m
    · rw [if_pos hdm]
      subst hdm
      rw [wsFind_cons, wsFind_cons]
      by_cases hmn : d = n
      · rw [if_pos hmn, if_pos hmn]
      · rw [if_neg hmn, if_neg hmn, if_neg hmn]
    · rw [if_neg hdm, wsFind_cons, wsFind_cons]
      by_cases hdn : d = n
      · rw [if_pos hdn, if_pos hdn]
        rw [if_neg (fun hmn => hdm (hdn.trans hmn.symm))]
      · rw [if_neg hdn, if_neg hdn, ih]

/-- saveConfiguration installs the entry's Gecko block under its function
name. -/
theorem wsFind_save_self (cfg : DetLambdaConfig)
    (ds : List (String × TemplateFile)) :
    ∃ t, wsFind cfg.functionName (saveConfiguration cfg ds) = some (.parsed t) ∧
      t.geckoOf = some (geckoFromEntry cfg) := by
  unfold saveConfiguration
  rw [wsFind_upsert, if_pos rfl]
  exact ⟨_, rfl, rfl⟩

/-- saveConfiguration leaves other function directories untouched. -/
theorem wsFind_save_other (cfg : DetLambdaConfig) (n : String)
    (h : cfg.functionName ≠ n) (ds : List (String × TemplateFile)) :
    wsFind n (saveConfiguration cfg ds) = wsFind n ds := by
  unfold saveConfiguration
  rw [wsFind_upsert, if_neg h]

/-- A fold of saveConfiguration writes nothing under names not in the
entry list. -/
theorem wsFind_foldl_save_not_mem (entries : List DetLambdaConfig)
    (n : String) (h : ∀ e ∈ entries, e.functionName ≠ n)
    (ds : List (String × TemplateFile)) :
    wsFind n (entries.foldl (fun ds e => saveConfiguration e ds) ds) =
      wsFind n ds := by
  induction entries generalizing ds with
  | nil => rfl
  | cons a rest ih =>
    rw [List.foldl_cons,
      ih (fun x hx => h x (List.mem_cons_of_mem _ hx)) (saveConfiguration a ds)]
    exact wsFind_save_other a n (h a (List.mem_cons_self _ _)) ds

/-- A fold of saveConfiguration over entries with pairwise-distinct names
installs every entry's Gecko block. -/
theorem wsFind_foldl_save_mem (entries : List DetLambdaConfig)
    (e : DetLambdaConfig) (he : e ∈ entries)
    (hnd : (entries.map (fun x => x.functionName)).Nodup)
    (ds : List (String × TemplateFile)) :
    ∃ t, wsFind e.functionName
        (entries.foldl (fun ds e => saveConfiguration e ds) ds) =
      some (.parsed t) ∧ t.geckoOf = some (geckoFromEntry e) := by
  induction entries generalizing ds with
  | nil => cases he
  | cons a rest ih =>
    rw [List.map_cons, List.nodup_cons] at hnd
    rw [List.foldl_cons]
    rcases List.mem_cons.mp he with rfl | hmem
    · have hnotin : ∀ x ∈ rest, x.functionName ≠ e.functionName := by
        intro x hx hEq
        exact hnd.1 (hEq ▸ List.mem_map_of_mem _ hx)
      rw [wsFind_foldl_save_not_mem rest e.functionName hnotin _]
      exact wsFind_save_self e ds
    · exact ih hmem hnd.2 _

/-- C3: when the legacy global registry is present, migration installs a
per-function manifest whose private metadata is populated from each legacy
entry, then renames the registry to its backup name with its content
preserved (never deleting it); when no legacy registry exists, migration
does nothing, and in particular a second run after a successful migration
is a no-op. -/
theorem migration_backs_up_legacy_and_is_noop (w : Workspace) :
    (w.legacy = none → performUnifiedSystemMigration w = w) ∧
    (∀ reg, w.legacy = some reg →
      (performUnifiedSystemMigration w).legacy = none ∧
      (performUnifiedSystemMigration w).legacyBackup = some reg ∧
      performUnifiedSystemMigration (performUnifiedSystemMigration w) =
        performUnifiedSystemMigration w ∧
      ((reg.map (fun e => e.functionName)).Nodup →
        ∀ e ∈ reg, ∃ t,
          wsFind e.functionName (performUnifiedSystemMigration w).dirs =
            some (.parsed t) ∧ t.geckoOf = some (geckoFromEntry e))) := by
  constructor
  · intro h
    unfold performUnifiedSystemMigration
    rw [h]
    rfl
  · intro reg hreg
    have hrun : performUnifiedSystemMigration w =
        cleanupGlobalConfig (migrateFromGlobalConfig w) := by
      unfold performUnifiedSystemMigration
      rw [hreg]
      rfl
    have hmig : migrateFromGlobalConfig w =
        { w with dirs := reg.foldl (fun ds e => saveConfiguration e ds) w.dirs } := by
      unfold migrateFromGlobalConfig
      rw [hreg]
    have hclean : performUnifiedSystemMigration w =
        { w with
          legacy := none
          legacyBackup := some reg
          dirs := reg.foldl (fun ds e => saveConfiguration e ds) w.dirs } := by
      rw [hrun, hmig]
      unfold cleanupGlobalConfig
      simp [hreg]
    refine ⟨by rw [hclean], by rw [hclean], ?_, ?_⟩
    · rw [hclean]
      rfl
    · intro hnd e he
      rw [hclean]
      exact wsFind_foldl_save_mem reg e he hnd w.dirs

/-- Witness for C3: a workspace whose legacy registry holds one entry. -/
theorem migration_backs_up_legacy_and_is_noop_witness :
    ∃ t, wsFind "fn"
        (performUnifiedSystemMigration
          ⟨some [⟨"fn", "/ws", "s3", "T0", "/x/main.go", "/x"⟩], none, []⟩).dirs =
      some (.parsed t) ∧
      t.geckoOf = some (geckoFromEntry ⟨"fn", "/ws", "s3", "T0", "/x/main.go", "/x"⟩) ∧
      (performUnifiedSystemMigration
        ⟨some [⟨"fn", "/ws", "s3", "T0", "/x/main.go", "/x"⟩], none, []⟩).legacyBackup =
        some [⟨"fn", "/ws", "s3", "T0", "/x/main.go", "/x"⟩] := by
  obtain ⟨hl, hb, _hid, hfind⟩ :=
    (migration_backs_up_legacy_and_is_noop
      ⟨some [⟨"fn", "/ws", "s3", "T0", "/x/main.go", "/x"⟩], none, []⟩).2
      [⟨"fn", "/ws", "s3", "T0", "/x/main.go", "/x"⟩] rfl
  obtain ⟨t, ht1, ht2⟩ := hfind (by decide)
    ⟨"fn", "/ws", "s3", "T0", "/x/main.go", "/x"⟩ (by decide)
  exact ⟨t, ht1, ht2, hb⟩

/-!
## C7: incomplete metadata — validation versus the two repair paths
-/

/-- A manifest whose Gecko block exists but carries only an eventType:
sourceFile, sourceDir and version are missing (an Incomplete manifest). -/
def tIncompleteW : Template :=
  ⟨none, some ⟨some { Gecko.empty with eventType := some "s3" }, []⟩,
    none, [], [], []⟩

/-- Counterexample for C7: this Incomplete manifest is reported as a
validation issue, but ConfigManager.repairTemplate leaves it completely
unchanged — it does not follow the Unmetadataed path and writes no
replacement metadata block. -/
theorem repairTemplate_skips_incomplete_counterexample :
    (validateGeckoMetadata tIncompleteW).hasMetadata = true ∧
    (validateGeckoMetadata tIncompleteW).isValid = false ∧
    repairTemplate (.parsed tIncompleteW) "" "" "apigateway" "T" =
      .ok (.parsed tIncompleteW) ∧
    (.parsed tIncompleteW : TemplateFile) ≠
      .parsed (cmUpdateGeckoMetadata tIncompleteW "" "" "apigateway" "T") := by
  refine ⟨by decide, by decide, rfl, by decide⟩

/-- C7 (amended): incomplete private metadata is reported as a validation
issue by validateGeckoMetadata; TemplateManager.migrateToUnifiedSystem
repairs it through exactly the same updateGeckoMetadata write used for a
manifest with no metadata at all (rewriting every managed field at once,
not patching only the missing ones); ConfigManager.repairTemplate, however,
treats any manifest with a metadata block present as repaired and leaves
Incomplete manifests unchanged. -/
theorem incomplete_metadata_validation_and_repair_paths :
    (∀ t g, t.geckoOf = some g →
      (strTruthy g.sourceFile = false ∨ strTruthy g.sourceDir = false ∨
       strTruthy g.eventType = false ∨ strTruthy g.version = false) →
      (validateGeckoMetadata t).hasMetadata = true ∧
      (validateGeckoMetadata t).isValid = false ∧
      (validateGeckoMetadata t).issues ≠ []) ∧
    (∀ t g sourceFile sourceDir eventType now, t.geckoOf = some g →
      repairTemplate (.parsed t) sourceFile sourceDir eventType now =
        .ok (.parsed t)) ∧
    (∀ t sourceFile sourceDir eventType now,
      (validateGeckoMetadata t).isValid = false →
      migrateToUnifiedSystem t sourceFile sourceDir eventType now =
        tmUpdateGeckoMetadata t sourceFile sourceDir eventType now) ∧
    (∀ t sourceFile sourceDir eventType now, t.geckoOf = none →
      migrateToUnifiedSystem t sourceFile sourceDir eventType now =
        tmUpdateGeckoMetadata t sourceFile sourceDir eventType now) := by
  refine ⟨?_, ?_, ?_, ?_⟩
  · intro t g hg hmiss
    have hform : validateGeckoMetadata t = ⟨true,
        ((if !strTruthy g.sourceFile then ["Missing sourceFile in metadata"] else []) ++
         (if !strTruthy g.sourceDir then ["Missing sourceDir in metadata"] else []) ++
         (if !strTruthy g.eventType then ["Missing eventType in metadata"] else []) ++
         (if !strTruthy g.version then ["Missing version in metadata"] else [])).isEmpty,
        some g,
        (if !strTruthy g.sourceFile then ["Missing sourceFile in metadata"] else []) ++
        (if !strTruthy g.sourceDir then ["Missing sourceDir in metadata"] else []) ++
        (if !strTruthy g.eventType then ["Missing eventType in metadata"] else []) ++
        (if !strTruthy g.version then ["Missing version in metadata"] else [])⟩ := by
      unfold validateGeckoMetadata
      rw [hg]
    have hmem : ∃ m, m ∈ (validateGeckoMetadata t).issues := by
      rw [hform]
      rcases hmiss with h | h | h | h
      · exact ⟨"Missing sourceFile in metadata", by
          simp only [h, Bool.not_false, if_true]
          exact List.mem_append_left _ (List.mem_append_left _
            (List.mem_append_left _ (List.mem_cons_self _ _)))⟩
      · exact ⟨"Missing sourceDir in metadata", by
          simp only [h, Bool.not_false, if_true]
          exact List.mem_append_left _ (List.mem_append_left _
            (List.mem_append_right _ (List.mem_cons_self _ _)))⟩
      · exact ⟨"Missing eventType in metadata", by
          simp only [h, Bool.not_false, if_true]
          exact List.mem_append_left _
            (List.mem_append_right _ (List.mem_cons_self _ _))⟩
      · exact ⟨"Missing version in metadata", by
          simp only [h, Bool.not_false, if_true]
          exact List.mem_append_right _ (List.mem_cons_self _ _)⟩
    obtain ⟨m, hm⟩ := hmem
    have hne : (validateGeckoMetadata t).issues ≠ [] := List.ne_nil_of_mem hm
    refine ⟨by rw [hform], ?_, hne⟩
    have : (validateGeckoMetadata t).isValid = (validateGeckoMetadata t).issues.isEmpty := by
      rw [hform]
    rw [this]
    cases hi : (validateGeckoMetadata t).issues with
    | nil => exact absurd hi hne
    | cons a l => rfl
  · intro t g sourceFile sourceDir eventType now hg
    simp [repairTemplate, validateUnifiedTemplate, hg]
  · intro t sourceFile sourceDir eventType now hv
    unfold migrateToUnifiedSystem
    simp only []
    rw [hv]
    simp
  · intro t sourceFile sourceDir eventType now hg
    simp [migrateToUnifiedSystem, validateGeckoMetadata, hg]

/-- Witness for C7 (amended): concrete evaluation on the Incomplete
manifest and on a metadata-less manifest. -/
theorem incomplete_metadata_validation_and_repair_paths_witness :
    ((validateGeckoMetadata tIncompleteW).isValid = false ∧
      (validateGeckoMetadata tIncompleteW).issues ≠ []) ∧
    repairTemplate (.parsed tIncompleteW) "/s" "/d" "s3" "T" =
      .ok (.parsed tIncompleteW) ∧
    migrateToUnifiedSystem tIncompleteW "/s" "/d" "s3" "T" =
      tmUpdateGeckoMetadata tIncompleteW "/s" "/d" "s3" "T" ∧
    migrateToUnifiedSystem tPlainW "/s" "/d" "s3" "T" =
      tmUpdateGeckoMetadata tPlainW "/s" "/d" "s3" "T" := by
  obtain ⟨h1, h2, h3, h4⟩ := incomplete_metadata_validation_and_repair_paths
  refine ⟨?_, ?_, ?_, ?_⟩
  · have := h1 tIncompleteW { Gecko.empty with eventType := some "s3" } rfl
      (Or.inl (by decide))
    exact ⟨this.2.1, this.2.2⟩
  · exact h2 tIncompleteW { Gecko.empty with eventType := some "s3" }
      "/s" "/d" "s3" "T" rfl
  · exact h3 tIncompleteW "/s" "/d" "s3" "T" (by decide)
  · exact h4 tPlainW "/s" "/d" "s3" "T" rfl

/-!
## C10: function-name derivation and the PascalCase round trip
-/

/-- Scan step: separator followed by a word character substitutes. -/
theorem pascalReplaceAux_sep_word (c d : Char) (rest : List Char)
    (hsep : (decide (c = '-') || decide (c = '_')) = true)
    (hw : isWordChar d = true) :
    pascalReplaceAux (c :: d :: rest) = d.toUpper :: pascalReplaceAux rest := by
  simp [pascalReplaceAux, hsep, hw]

/-- Scan step: separator not followed by a word character is copied. -/
theorem pascalReplaceAux_sep_noword (c d : Char) (rest : List Char)
    (hsep : (decide (c = '-') || decide (c = '_')) = true)
    (hw : ¬isWordChar d = true) :
    pascalReplaceAux (c :: d :: rest) = c :: pascalReplaceAux (d :: rest) := by
  simp [pascalReplaceAux, hsep, hw]

/-- Scan step: a non-separator character is copied. -/
theorem pascalReplaceAux_nosep (c d : Char) (rest : List Char)
    (hsep : ¬(decide (c = '-') || decide (c = '_')) = true) :
    pascalReplaceAux (c :: d :: rest) = c :: pascalReplaceAux (d :: rest) := by
  simp [pascalReplaceAux, hsep]

/-- The scan never lengthens the string. -/
theorem pascalReplaceAux_length_le (l : List Char) :
    (pascalReplaceAux l).length ≤ l.length := by
  induction l using pascalReplaceAux.induct with
  | case1 => exact Nat.le_refl _
  | case2 c => exact Nat.le_refl _
  | case3 c d rest hsep hw ih =>
    rw [pascalReplaceAux_sep_word c d rest hsep hw]
    simp only [List.length_cons]
    omega
  | case4 c d rest hsep hw ih =>
    rw [pascalReplaceAux_sep_noword c d rest hsep hw]
    simp only [List.length_cons] at ih ⊢
    omega
  | case5 c d rest hsep ih =>
    rw [pascalReplaceAux_nosep c d rest hsep]
    simp only [List.length_cons] at ih ⊢
    omega

/-- With a separator-then-word-character pair present, the scan strictly
shortens the string. -/
theorem pascalReplaceAux_length_lt (l : List Char)
    (h : hasSepMatch l = true) :
    (pascalReplaceAux l).length < l.length := by
  induction l using pascalReplaceAux.induct with
  | case1 => exact absurd h (by simp [hasSepMatch])
  | case2 c => exact absurd h (by simp [hasSepMatch])
  | case3 c d rest hsep hw ih =>
    rw [pascalReplaceAux_sep_word c d rest hsep hw]
    have := pascalReplaceAux_length_le rest
    simp only [List.length_cons]
    omega
  | case4 c d rest hsep hw ih =>
    have hh : hasSepMatch (d :: rest) = true := by
      have : hasSepMatch (c :: d :: rest) =
          (((c = '-' || c = '_') && isWordChar d) || hasSepMatch (d :: rest)) := rfl
      rw [this] at h
      simpa [hw] using h
    rw [pascalReplaceAux_sep_noword c d rest hsep hw]
    have := ih hh
    simp only [List.length_cons] at this ⊢
    omega
  | case5 c d rest hsep ih =>
    have hh : hasSepMatch (d :: rest) = true := by
      have : hasSepMatch (c :: d :: rest) =
          (((c = '-' || c = '_') && isWordChar d) || hasSepMatch (d :: rest)) := rfl
      rw [this] at h
      simpa [hsep] using h
    rw [pascalReplaceAux_nosep c d rest hsep]
    have := ih hh
    simp only [List.length_cons] at this ⊢
    omega

/-- The scan of a nonempty string is nonempty. -/
theorem pascalReplaceAux_ne_nil (l : List Char) (h : l ≠ []) :
    pascalReplaceAux l ≠ [] := by
  induction l using pascalReplaceAux.induct with
  | case1 => exact absurd rfl h
  | case2 c => exact List.cons_ne_nil c []
  | case3 c d rest hsep hw ih =>
    rw [pascalReplaceAux_sep_word c d rest hsep hw]
    exact List.cons_ne_nil _ _
  | case4 c d rest hsep hw ih =>
    rw [pascalReplaceAux_sep_noword c d rest hsep hw]
    exact List.cons_ne_nil _ _
  | case5 c d rest hsep ih =>
    rw [pascalReplaceAux_nosep c d rest hsep]
    exact List.cons_ne_nil _ _

/-- Upcasing the first word character preserves the length. -/
theorem upperFirstIfWord_length (l : List Char) :
    (upperFirstIfWord l).length = l.length := by
  cases l with
  | nil => rfl
  | cons c rest =>
    show (if isWordChar c = true then c.toUpper :: rest else c :: rest).length =
      (c :: rest).length
    by_cases h : isWordChar c = true
    · rw [if_pos h]
      rfl
    · rw [if_neg h]

/-- Upcasing the first word character preserves nonemptiness. -/
theorem upperFirstIfWord_ne_nil (l : List Char) (h : l ≠ []) :
    upperFirstIfWord l ≠ [] := by
  cases l with
  | nil => exact absurd rfl h
  | cons c rest =>
    show (if isWordChar c = true then c.toUpper :: rest else c :: rest) ≠ []
    by_cases hw : isWordChar c = true
    · rw [if_pos hw]; exact List.cons_ne_nil _ _
    · rw [if_neg hw]; exact List.cons_ne_nil _ _

/-- Stripping the appended "Function" suffix recovers the prefix. -/
theorem stripFunctionSuffix_append (p : String) :
    stripFunctionSuffix (p ++ "Function") = p := by
  unfold stripFunctionSuffix
  have hdata : (p ++ "Function").data = p.data ++ "Function".data :=
    String.data_append p "Function"
  have hsuf : ("Function".data).isSuffixOf (p ++ "Function").data = true := by
    rw [hdata, List.isSuffixOf_iff_suffix]
    exact List.suffix_append p.data "Function".data
  rw [if_pos hsuf, hdata]
  have hlen : "Function".data.length = 8 := rfl
  rw [List.length_append, hlen, Nat.add_sub_cancel,
    List.take_left p.data "Function".data]

/-- A String is empty exactly when its character list is. -/
theorem string_eq_empty_iff (s : String) : s = "" ↔ s.data = [] := by
  constructor
  · intro h
    rw [h]
  · intro h
    cases s
    simp only at h
    rw [h]

/-- C10 (amended): manifests created by the tool carry no functionName in
their private metadata; extraction then derives the function name by
stripping the trailing "Function" from the resource key and lowercasing
(falling back to the directory name only when that is empty); and for every
function name containing a hyphen or underscore immediately followed by a
word character, the PascalCase resource key loses the separator, so the
derived name differs from the function directory name.  (A trailing
separator, by contrast, survives the round trip.) -/
theorem extract_functionName_pascal_roundtrip :
    (∀ p now, ∃ g, (createTemplate p now).geckoOf = some g ∧
      g.functionName = none) ∧
    (∀ key dirB, extractFunctionName none key dirB =
      jsOrS (jsToLower (stripFunctionSuffix key)) dirB) ∧
    (∀ name dirB, hasSepMatch name.data = true →
      extractFunctionName none (toPascalCase name ++ "Function") dirB ≠ name) := by
  refine ⟨?_, ?_, ?_⟩
  · intro p now
    exact ⟨_, rfl, rfl⟩
  · intro key dirB
    rfl
  · intro name dirB h
    have hne : name.data ≠ [] := by
      intro hnil
      rw [hnil] at h
      exact absurd h (by simp [hasSepMatch])
    have hlt : (pascalReplaceAux name.data).length < name.data.length :=
      pascalReplaceAux_length_lt name.data h
    have hpne : pascalReplaceAux name.data ≠ [] :=
      pascalReplaceAux_ne_nil name.data hne
    have hstrip : stripFunctionSuffix (toPascalCase name ++ "Function") =
        toPascalCase name := stripFunctionSuffix_append (toPascalCase name)
    have hlow : jsToLower (toPascalCase name) =
        String.mk ((upperFirstIfWord (pascalReplaceAux name.data)).map
          Char.toLower) := rfl
    have hlowne : jsToLower (toPascalCase name) ≠ "" := by
      rw [hlow, Ne, string_eq_empty_iff]
      show ¬(upperFirstIfWord (pascalReplaceAux name.data)).map Char.toLower = []
      rw [List.map_eq_nil_iff]
      exact upperFirstIfWord_ne_nil _ hpne
    have hcore : extractFunctionName none (toPascalCase name ++ "Function") dirB =
        jsToLower (toPascalCase name) := by
      show jsOrS (jsToLower (stripFunctionSuffix (toPascalCase name ++ "Function")))
        dirB = _
      rw [hstrip]
      unfold jsOrS
      rw [if_neg hlowne]
    intro hEq
    rw [hcore] at hEq
    have hlen : (jsToLower (toPascalCase name)).data.length =
        name.data.length := by rw [hEq]
    have hlen2 : ((upperFirstIfWord (pascalReplaceAux name.data)).map
        Char.toLower).length = name.data.length := hlen
    rw [List.length_map, upperFirstIfWord_length] at hlen2
    omega

/-- Counterexample for C10 as stated: the function name "my_" contains an
underscore, yet the derived name equals it exactly — both through the bare
derivation chain and end to end through createTemplate followed by
extractConfigFromTemplate. -/
theorem extract_functionName_underscore_counterexample :
    ('_' ∈ "my_".data) ∧
    extractFunctionName none (toPascalCase "my_" ++ "Function") "my_" = "my_" ∧
    (extractConfigFromTemplate
      (createTemplate ⟨"my_", "apigateway", some "/w/my_/main.go",
        some "/w/my_", none, none, none, none, none, none, none⟩ "T1")
      "my_" "/ws" none "T2").map (fun c => c.functionName) = some "my_" := by
  refine ⟨by decide, by decide, by decide⟩

/-- Witness for C10 (amended): "my-func" has a separator followed by a word
character and is not recovered. -/
theorem extract_functionName_pascal_roundtrip_witness :
    extractFunctionName none (toPascalCase "my-func" ++ "Function") "my-func" ≠
      "my-func" := by
  exact extract_functionName_pascal_roundtrip.2.2 "my-func" "my-func" (by decide)

/-!
## C2: the extract - write - extract cycle
-/

/-- jsOr of a present nonempty string is that string. -/
theorem jsOr_some_of_ne (s : String) (b : String) (h : s ≠ "") :
    jsOr (some s) b = s := by
  show (if s = "" then b else s) = s
  rw [if_neg h]

/-- Closed form of extractConfigFromTemplate on a document with a function
resource and a Gecko block. -/
theorem extractConfig_eq (t : Template) (dirB ws : String)
    (fb : Option FallbackInfo) (now : String) (key : String) (res : Resource)
    (hfind : findFunctionResource t = some (key, res))
    (g : Gecko) (hg : t.geckoOf = some g) :
    extractConfigFromTemplate t dirB ws fb now = some
      { functionName := extractFunctionName g.functionName key dirB
        sourceMainFile :=
          jsOr g.sourceFile (jsOr (fb.bind (fun x => x.sourceMainFile)) "")
        sourceDir := jsOr g.sourceDir (jsOr (fb.bind (fun x => x.sourceDir)) "")
        eventType := jsOr g.eventType
          (detectEventTypeFromEvents (res.properties.getD Properties.empty).events)
        workspacePath := ws
        lastModified := jsOr g.lastModified now
        runtime := jsOr g.runtime
          (jsOr (res.properties.getD Properties.empty).runtime
            (jsOr (t.globalsFn.getD ⟨none, none, none⟩).runtime "provided.al2023"))
        architecture := jsOr g.architecture
          (jsOr (res.properties.getD Properties.empty).architectures.head? "arm64")
        buildMethod := jsOr g.buildMethod "direct"
        envVariables := (res.properties.getD Properties.empty).envVars.getD []
        envLastUpdated := (envMetaOf g.environmentInfo).lastUpdated
        envSource := (envMetaOf g.environmentInfo).source
        envAwsFunctionName := (envMetaOf g.environmentInfo).awsFunctionName
        tmplTimeout := jsOrN (res.properties.getD Properties.empty).timeout
          (jsOrN (t.globalsFn.getD ⟨none, none, none⟩).timeout 30)
        tmplMemorySize := jsOrN (res.properties.getD Properties.empty).memorySize
          (jsOrN (t.globalsFn.getD ⟨none, none, none⟩).memorySize 128)
        tmplDescription := jsOr t.description
          ("Lambda function for " ++
            (jsOr g.eventType (detectEventTypeFromEvents
              (res.properties.getD Properties.empty).events)) ++ " events") } := by
  unfold extractConfigFromTemplate
  rw [hfind, hg]
  rfl

/-- The merge write keeps the rest of the Gecko block: its result block is
the old one with only the five managed fields replaced. -/
theorem tmUpdate_geckoOf (t : Template) (a b c now : String) (g : Gecko)
    (hg : t.geckoOf = some g) :
    (tmUpdateGeckoMetadata t a b c now).geckoOf = some
      { g with
        sourceFile := some a
        sourceDir := some b
        eventType := some c
        lastModified := some now
        version := some "2.0" } := by
  have h0 : (tmUpdateGeckoMetadata t a b c now).geckoOf = some
      { (t.geckoOf.getD Gecko.empty) with
        sourceFile := some a
        sourceDir := some b
        eventType := some c
        lastModified := some now
        version := some "2.0" } := rfl
  rw [h0, hg]
  rfl

/-- A configuration with its lastModified stamp erased. -/
def stripLastModified (c : LocalLambdaConfig) : LocalLambdaConfig :=
  { c with lastModified := "" }

/-- A complete Gecko block that also carries a buildMethod tag. -/
def gC2 : Gecko :=
  { Gecko.empty with
    sourceFile := some "/s/main.go"
    sourceDir := some "/s"
    eventType := some "s3"
    lastModified := some "T0"
    version := some "2.0"
    buildMethod := some "sam" }

/-- A valid manifest: function resource present, complete metadata, and a
buildMethod recorded only in the metadata. -/
def tC2 : Template :=
  ⟨none, some ⟨some gC2, []⟩, none,
    [("FooFunction", ⟨some "AWS::Serverless::Function", none, []⟩)], [], []⟩

/-- Counterexample for C2 as stated: on this valid manifest, writing the
extracted sourceFile, sourceDir and eventType back through
ConfigManager.updateGeckoMetadata and extracting again changes the
normalized view even modulo lastModified — the buildMethod reverts from
"sam" to the "direct" fallback, because the replacement write drops every
metadata field it does not manage. -/
theorem extract_write_extract_cm_counterexample :
    (validateGeckoMetadata tC2).isValid = true ∧
    (extractConfigFromTemplate tC2 "foo" "/ws" none "N1").map stripLastModified ≠
      (extractConfigFromTemplate
        (cmUpdateGeckoMetadata tC2 "/s/main.go" "/s" "s3" "N2")
        "foo" "/ws" none "N3").map stripLastModified ∧
    (extractConfigFromTemplate tC2 "foo" "/ws" none "N1").map
      (fun c => c.buildMethod) = some "sam" ∧
    (extractConfigFromTemplate
        (cmUpdateGeckoMetadata tC2 "/s/main.go" "/s" "s3" "N2")
        "foo" "/ws" none "N3").map (fun c => c.buildMethod) = some "direct" := by
  refine ⟨by decide, by decide, by decide, by decide⟩

/-- C2 (amended): for every valid manifest (parseable, function resource
present, complete private metadata), extracting, then writing the same
sourceFile, sourceDir and eventType back through
TemplateManager.updateGeckoMetadata — the merge write that spreads the
existing block — and extracting again yields an identical normalized
configuration (runtime, architecture, buildMethod and environment
provenance included) modulo the lastModified timestamp; the replacement
write ConfigManager.updateGeckoMetadata does not have this property. -/
theorem extract_write_extract_tm_roundtrip
    (t : Template) (dirB ws : String) (fb : Option FallbackInfo)
    (now1 now2 now3 : String) (g : Gecko)
    (hg : t.geckoOf = some g)
    (h1 : strTruthy g.sourceFile = true) (h2 : strTruthy g.sourceDir = true)
    (h3 : strTruthy g.eventType = true) (_h4 : strTruthy g.version = true)
    (c : LocalLambdaConfig)
    (hc : extractConfigFromTemplate t dirB ws fb now1 = some c) :
    ∃ c2, extractConfigFromTemplate
        (tmUpdateGeckoMetadata t c.sourceMainFile c.sourceDir c.eventType now2)
        dirB ws fb now3 = some c2 ∧
      stripLastModified c2 = stripLastModified c := by
  obtain ⟨s1, hgs1, hne1⟩ : ∃ s, g.sourceFile = some s ∧ s ≠ "" := by
    cases hx : g.sourceFile with
    | none => rw [hx] at h1; exact absurd h1 (by simp [strTruthy])
    | some s =>
      rw [hx] at h1
      exact ⟨s, rfl, by simpa [strTruthy] using h1⟩
  obtain ⟨s2, hgs2, hne2⟩ : ∃ s, g.sourceDir = some s ∧ s ≠ "" := by
    cases hx : g.sourceDir with
    | none => rw [hx] at h2; exact absurd h2 (by simp [strTruthy])
    | some s =>
      rw [hx] at h2
      exact ⟨s, rfl, by simpa [strTruthy] using h2⟩
  obtain ⟨s3, hgs3, hne3⟩ : ∃ s, g.eventType = some s ∧ s ≠ "" := by
    cases hx : g.eventType with
    | none => rw [hx] at h3; exact absurd h3 (by simp [strTruthy])
    | some s =>
      rw [hx] at h3
      exact ⟨s, rfl, by simpa [strTruthy] using h3⟩
  cases hfind : findFunctionResource t with
  | none =>
    unfold extractConfigFromTemplate at hc
    rw [hfind] at hc
    cases hc
  | some kr =>
    obtain ⟨key, res⟩ := kr
    have hcR := extractConfig_eq t dirB ws fb now1 key res hfind g hg
    have hcv : c = _ := Option.some.inj (hc.symm.trans hcR)
    have hsm : c.sourceMainFile = s1 := by
      rw [hcv]
      simp only [hgs1]
      exact jsOr_some_of_ne s1 _ hne1
    have hsd : c.sourceDir = s2 := by
      rw [hcv]
      simp only [hgs2]
      exact jsOr_some_of_ne s2 _ hne2
    have het : c.eventType = s3 := by
      rw [hcv]
      simp only [hgs3]
      exact jsOr_some_of_ne s3 _ hne3
    have hg1 := tmUpdate_geckoOf t c.sourceMainFile c.sourceDir c.eventType now2 g hg
    have hfind1 : findFunctionResource
        (tmUpdateGeckoMetadata t c.sourceMainFile c.sourceDir c.eventType now2) =
        some (key, res) := hfind
    have hR2 := extractConfig_eq
      (tmUpdateGeckoMetadata t c.sourceMainFile c.sourceDir c.eventType now2)
      dirB ws fb now3 key res hfind1 _ hg1
    have e1 : ∀ b, jsOr (some s1) b = s1 := fun b => jsOr_some_of_ne s1 b hne1
    have e2 : ∀ b, jsOr (some s2) b = s2 := fun b => jsOr_some_of_ne s2 b hne2
    have e3 : ∀ b, jsOr (some s3) b = s3 := fun b => jsOr_some_of_ne s3 b hne3
    refine ⟨_, hR2, ?_⟩
    rw [hsm, hsd, het, hcv]
    unfold stripLastModified
    simp [tmUpdateGeckoMetadata, hgs1, hgs2, hgs3, e1, e2, e3]

/-- Witness for C2 (amended): the concrete valid manifest tC2, extracted,
written back through the merge write, and extracted again. -/
theorem extract_write_extract_tm_roundtrip_witness :
    ∃ c2, extractConfigFromTemplate
        (tmUpdateGeckoMetadata tC2 "/s/main.go" "/s" "s3" "N2")
        "foo" "/ws" none "N3" = some c2 ∧
      stripLastModified c2 = stripLastModified
        ⟨"foo", "/s/main.go", "/s", "s3", "/ws", "T0", "provided.al2023",
          "arm64", "sam", [], some "", some "manual", none, 30, 128,
          "Lambda function for s3 events"⟩ := by
  have hc : extractConfigFromTemplate tC2 "foo" "/ws" none "N1" =
      some ⟨"foo", "/s/main.go", "/s", "s3", "/ws", "T0", "provided.al2023",
        "arm64", "sam", [], some "", some "manual", none, 30, 128,
        "Lambda function for s3 events"⟩ := by decide
  exact extract_write_extract_tm_roundtrip tC2 "foo" "/ws" none "N1" "N2" "N3"
    gC2 rfl (by decide) (by decide) (by decide) (by decide) _ hc
